import Mathlib

/-!
Shallow embedding of the Goki smart-wallet program
(`programs/smart-wallet/src/{lib,state,validators}.rs`): the multisig
configuration, the transaction/ballot state, and the instruction handlers
`create_smart_wallet`, `create_transaction`, `append_transaction`,
`create_transaction_with_timelock`, `approve`, `unapprove`,
`execute_transaction` and `execute_transaction_derived`.

Machine integers are embedded as `Nat`/`Int` with explicit range checks where
the source uses checked arithmetic (`checked_add`, `checked_sub` and
`unwrap_int!`).  Fallible handlers return `Except PErr _`; a Rust panic
(`Option::unwrap` on `None`, out-of-bounds slice indexing) is a distinguished
`PErr` constructor, separate from the typed `ErrorCode` errors.  The host
runtime discards all account writes of a failed instruction, so a handler that
returns `.error` leaves every account unchanged; handlers therefore return the
final account states only on success.

The repository declares `mod smart_wallet_utils;` and `mod transaction;` whose
files are not part of the sources given here; the account validators invoked
through `#[access_control(ctx.accounts.validate())]` for `CreateTransaction`,
`Approve` and `ExecuteTransaction`, the helper `SmartWallet::owner_index` and
`Transaction::num_signers` live there.  Those definitions are modelled from the
specification (each is marked `Modelled from the spec:` in its doc comment);
everything else is translated from the source files directly.
-/

namespace Goki

/-- Principal identifier (`Pubkey`), modelled as a natural number;
`0` plays the role of `Pubkey::default()`. -/
abbrev Pubkey := Nat

/-- Number of seconds in a day (`SECONDS_PER_DAY`). -/
def SECONDS_PER_DAY : Int := 60 * 60 * 24

/-- Maximum timelock delay (`MAX_DELAY_SECONDS = 365 * SECONDS_PER_DAY`). -/
def MAX_DELAY_SECONDS : Int := 365 * SECONDS_PER_DAY

/-- Default number of seconds until a transaction expires
(`DEFAULT_GRACE_PERIOD = 14 * SECONDS_PER_DAY`). -/
def DEFAULT_GRACE_PERIOD : Int := 14 * SECONDS_PER_DAY

/-- Sentinel declaring that there is no ETA of the transaction (`NO_ETA = -1`). -/
def NO_ETA : Int := -1

/-- One more than the largest `u64` value. -/
def U64_MOD : Nat := 2 ^ 64

/-- Smallest `i64` value. -/
def I64_MIN : Int := -(2 ^ 63)

/-- Largest `i64` value. -/
def I64_MAX : Int := 2 ^ 63 - 1

/-- `u64::checked_add`: `none` exactly when the sum leaves the `u64` range. -/
def u64_checked_add (a b : Nat) : Option Nat :=
  if a + b < U64_MOD then some (a + b) else none

/-- `i64::checked_add`: `none` exactly when the sum leaves the `i64` range. -/
def i64_checked_add (a b : Int) : Option Int :=
  if I64_MIN ≤ a + b ∧ a + b ≤ I64_MAX then some (a + b) else none

/-- `i64::checked_sub`: `none` exactly when the difference leaves the `i64` range. -/
def i64_checked_sub (a b : Int) : Option Int :=
  if I64_MIN ≤ a - b ∧ a - b ≤ I64_MAX then some (a - b) else none

/-- Account metadata of an instruction (`TXAccountMeta` in `state.rs`). -/
structure TXAccountMeta where
  pubkey : Pubkey
  is_signer : Bool
  is_writable : Bool
deriving DecidableEq, Repr

/-- One Solana instruction stored in a transaction (`TXInstruction` in `state.rs`). -/
structure TXInstruction where
  program_id : Pubkey
  keys : List TXAccountMeta
  data : List Nat
deriving DecidableEq, Repr

/-- The multisig wallet configuration account (`SmartWallet` in `state.rs`).
`threshold` and `num_transactions` are `u64`, `minimum_delay` and
`grace_period` are `i64`, `owner_set_seqno` is `u32`. -/
structure SmartWallet where
  base : Pubkey
  bump : Nat
  threshold : Nat
  minimum_delay : Int
  grace_period : Int
  owner_set_seqno : Nat
  num_transactions : Nat
  owners : List Pubkey
deriving DecidableEq, Repr

/-- A proposed transaction account (`Transaction` in `state.rs`).
`signers[i] = true` iff `owners[i]` has signed; `executed_at = -1` is the
"not executed" sentinel. -/
structure Transaction where
  smart_wallet : Pubkey
  index : Nat
  bump : Nat
  proposer : Pubkey
  instructions : List TXInstruction
  signers : List Bool
  owner_set_seqno : Nat
  eta : Int
  executor : Pubkey
  executed_at : Int
deriving DecidableEq, Repr

/-- The typed error codes of the program (`ErrorCode` in `lib.rs`),
restricted to the variants the smart-wallet handlers can raise. -/
inductive ErrorCode
  | InvalidOwner
  | InvalidETA
  | DelayTooHigh
  | NotEnoughSigners
  | TransactionIsStale
  | TransactionNotReady
  | AlreadyExecuted
  | InvalidThreshold
  | OwnerSetChanged
  | InvalidBump
deriving DecidableEq, Repr

/-- Every way a handler invocation can fail: a typed `ErrorCode` (`require!`),
a vipers `invariant!` failure with its message, an `unwrap_int!` overflow, a
Rust panic from `Option::unwrap` on `None`, a Rust panic from out-of-bounds
indexing, or a failure reported by an invoked inner instruction. -/
inductive PErr
  | err : ErrorCode → PErr
  | invariantViolated : String → PErr
  | overflow : PErr
  | unwrapNone : PErr
  | indexOutOfBounds : PErr
  | cpiFailed : Nat → PErr
deriving DecidableEq, Repr

/-- Modelled from the spec: `owner_slot(principal) → index` (§4.1) — the
source's `SmartWallet::owner_index`, defined in the missing
`smart_wallet_utils` module: the position of the principal in `owners`,
failing with `InvalidOwner` when it is not present. -/
def owner_index (w : SmartWallet) (k : Pubkey) : Except PErr Nat :=
  match w.owners.findIdx? (fun o => o == k) with
  | some i => .ok i
  | none => .error (.err .InvalidOwner)

/-- Handler `smart_wallet::create_smart_wallet` (`lib.rs:65-101`); its
account validator (`CreateSmartWallet` in `validators.rs`) checks nothing.
Returns the initialized wallet.  The handler performs no check involving
`threshold`. -/
def create_smart_wallet (base : Pubkey) (bump : Nat) (max_owners : Nat)
    (owners : List Pubkey) (threshold : Nat) (minimum_delay : Int) :
    Except PErr SmartWallet :=
  if minimum_delay < 0 then .error (.invariantViolated "delay must be positive")
  else if ¬ minimum_delay < MAX_DELAY_SECONDS then .error (.err .DelayTooHigh)
  else if ¬ owners.length ≤ max_owners then .error (.invariantViolated "max_owners")
  else .ok { base := base, bump := bump, threshold := threshold,
             minimum_delay := minimum_delay,
             grace_period := DEFAULT_GRACE_PERIOD,
             owner_set_seqno := 0, num_transactions := 0, owners := owners }

/-- Handler `smart_wallet::create_transaction` (`lib.rs:105-146`), which has no
`access_control` attribute.  The instruction buffer is
`buffer_size` copies of `blank_xacts[0]`, obtained by
`blank_xacts.get(0).unwrap()` — a panic when `blank_xacts` is empty; the
counter is incremented with `checked_add`, and only then is the proposer
resolved and the transaction initialized with `index = num_transactions`
(the already incremented value). -/
def create_transaction (w : SmartWallet) (w_key : Pubkey) (proposer : Pubkey)
    (bump : Nat) (buffer_size : Nat) (blank_xacts : List TXInstruction) :
    Except PErr (SmartWallet × Transaction) :=
  match blank_xacts.head? with
  | none => .error .unwrapNone
  | some blank =>
    match u64_checked_add w.num_transactions 1 with
    | none => .error .overflow
    | some n =>
      match owner_index w proposer with
      | .error e => .error e
      | .ok i =>
        .ok ({ w with num_transactions := n },
             { smart_wallet := w_key, index := n, bump := bump,
               proposer := proposer,
               instructions := List.replicate buffer_size blank,
               signers := (List.replicate w.owners.length false).set i true,
               owner_set_seqno := w.owner_set_seqno, eta := NO_ETA,
               executor := 0, executed_at := -1 })

/-- Handler `smart_wallet::append_transaction` (`lib.rs:149-171`): overwrites
slot `index` of the stored instruction buffer (a Rust panic when `index` is
out of bounds) and increments the wallet's `num_transactions` counter. -/
def append_transaction (w : SmartWallet) (tx : Transaction) (bump : Nat)
    (ix : TXInstruction) (index : Nat) :
    Except PErr (SmartWallet × Transaction) :=
  if tx.bump ≠ bump then .error (.err .InvalidBump)
  else if index < tx.instructions.length then
    match u64_checked_add w.num_transactions 1 with
    | none => .error .overflow
    | some n =>
      .ok ({ w with num_transactions := n },
           { tx with instructions := tx.instructions.set index ix })
  else .error .indexOutOfBounds

/-- Handler `smart_wallet::create_transaction_with_timelock`
(`lib.rs:355-413`).  Its `access_control` validator for `CreateTransaction`
is in the missing `transaction` module; modelled from the spec (§4.2), which
assigns it no check beyond those the handler body already performs, it is the
trivial validator.  When `minimum_delay ≠ 0` the handler requires
`eta ≥ now + minimum_delay` (`InvalidETA`) — also when `eta` is the `NO_ETA`
sentinel; when `eta ≠ NO_ETA` it further requires `0 ≤ eta`, `now ≤ eta` and
`eta - now ≤ MAX_DELAY_SECONDS` (`DelayTooHigh` above the ceiling).  The new
transaction gets `index = num_transactions` before the increment. -/
def create_transaction_with_timelock (w : SmartWallet) (w_key : Pubkey)
    (proposer : Pubkey) (bump : Nat) (instructions : List TXInstruction)
    (eta : Int) (now : Int) : Except PErr (SmartWallet × Transaction) :=
  match owner_index w proposer with
  | .error e => .error e
  | .ok i =>
    match (if w.minimum_delay ≠ 0 then
             match i64_checked_add now w.minimum_delay with
             | none => some PErr.overflow
             | some bound =>
               if eta < bound then some (PErr.err .InvalidETA) else none
           else none) with
    | some e => .error e
    | none =>
      match (if eta ≠ NO_ETA then
               if eta < 0 then some (PErr.invariantViolated "ETA must be positive")
               else
                 match i64_checked_sub eta now with
                 | none => some PErr.overflow
                 | some delay =>
                   if delay < 0 then
                     some (PErr.invariantViolated "ETA must be in the future")
                   else if ¬ delay ≤ MAX_DELAY_SECONDS then
                     some (PErr.err .DelayTooHigh)
                   else none
             else none) with
      | some e => .error e
      | none =>
        match u64_checked_add w.num_transactions 1 with
        | none => .error .overflow
        | some n =>
          .ok ({ w with num_transactions := n },
               { smart_wallet := w_key, index := w.num_transactions,
                 bump := bump, proposer := proposer,
                 instructions := instructions,
                 signers := (List.replicate w.owners.length false).set i true,
                 owner_set_seqno := w.owner_set_seqno, eta := eta,
                 executor := 0, executed_at := -1 })

/-- Handler `smart_wallet::approve` (`lib.rs:417-432`): resolves the owner's
slot and sets that slot of `signers` to `true` (a Rust panic when the slot
is out of bounds of `signers`).  Its `Approve` account validator is in the
missing `transaction` module; modelled from the spec (§4.2), which assigns
the approve path no check beyond owner resolution, it is the trivial
validator. -/
def approve (w : SmartWallet) (tx : Transaction) (owner : Pubkey) :
    Except PErr Transaction :=
  match owner_index w owner with
  | .error e => .error e
  | .ok i =>
    if i < tx.signers.length then
      .ok { tx with signers := tx.signers.set i true }
    else .error .indexOutOfBounds

/-- Handler `smart_wallet::unapprove` (`lib.rs:436-450`): symmetric to
`approve`, sets the owner's slot of `signers` to `false`. -/
def unapprove (w : SmartWallet) (tx : Transaction) (owner : Pubkey) :
    Except PErr Transaction :=
  match owner_index w owner with
  | .error e => .error e
  | .ok i =>
    if i < tx.signers.length then
      .ok { tx with signers := tx.signers.set i false }
    else .error .indexOutOfBounds

/-- Modelled from the spec: `tally(proposal)` — the number of `true` ballots
(§4.2); the source's `Transaction::num_signers` lives in the missing
`smart_wallet_utils` module. -/
def tally (tx : Transaction) : Nat := tx.signers.count true

/-- Modelled from the spec: the Timelock Policy outcome (§4.3). -/
inductive TimelockOutcome
  | Ready
  | NotYetDue
  | Stale
deriving DecidableEq, Repr

/-- Modelled from the spec: the Timelock Policy `is_executable` (§4.3).
With the no-ETA sentinel there is no time gate; otherwise `now < eta` is
`NotYetDue`, `now > eta + grace_period` is `Stale`, and in between `Ready`. -/
def is_executable (now : Int) (tx : Transaction) (w : SmartWallet) :
    TimelockOutcome :=
  if tx.eta = NO_ETA then .Ready
  else if now < tx.eta then .NotYetDue
  else if now > tx.eta + w.grace_period then .Stale
  else .Ready

/-- Modelled from the spec: the `ExecuteTransaction` account validator run by
`#[access_control(ctx.accounts.validate())]` on `execute_transaction` and
`execute_transaction_derived` — its `Validate` implementation is in the
missing `transaction` module.  Per §4.4 it checks, in order: the caller
resolves as an owner (`InvalidOwner`), `executed_at` unset
(`AlreadyExecuted`), the owner-set snapshot matches (`OwnerSetChanged`),
the ballot tally reaches the threshold (`NotEnoughSigners`), and the
Timelock Policy answers `Ready` (`TransactionNotReady` / `TransactionIsStale`). -/
def execute_validate (w : SmartWallet) (tx : Transaction) (caller : Pubkey)
    (now : Int) : Except PErr Unit :=
  match owner_index w caller with
  | .error e => .error e
  | .ok _ =>
    if tx.executed_at ≠ -1 then .error (.err .AlreadyExecuted)
    else if tx.owner_set_seqno ≠ w.owner_set_seqno then
      .error (.err .OwnerSetChanged)
    else if tally tx < w.threshold then .error (.err .NotEnoughSigners)
    else
      match is_executable now tx w with
      | .Ready => .ok ()
      | .NotYetDue => .error (.err .TransactionNotReady)
      | .Stale => .error (.err .TransactionIsStale)

/-- The dispatch loop of `do_execute_transaction` (`lib.rs:763-765`): invoke
each stored instruction in order through `invoke_signed`, stopping at the
first failure.  `invoke` is the external instruction executor; the result
pairs the list of instructions actually invoked with the loop's outcome. -/
def dispatch (invoke : TXInstruction → Except PErr Unit) :
    List TXInstruction → List TXInstruction × Except PErr Unit
  | [] => ([], .ok ())
  | ix :: rest =>
    match invoke ix with
    | .error e => ([ix], .error e)
    | .ok _ =>
      let r := dispatch invoke rest
      (ix :: r.1, r.2)

/-- `do_execute_transaction` (`lib.rs:762-779`): invoke every stored
instruction in order; only if all succeed, set `executor` to the calling
owner and `executed_at` to the current timestamp.  Performs no gating check
itself. -/
def do_execute_transaction (invoke : TXInstruction → Except PErr Unit)
    (tx : Transaction) (caller : Pubkey) (now : Int) :
    Except PErr Transaction :=
  match (dispatch invoke tx.instructions).2 with
  | .error e => .error e
  | .ok _ => .ok { tx with executor := caller, executed_at := now }

/-- Handler `smart_wallet::execute_transaction` (`lib.rs:453-462`): the
`ExecuteTransaction` validator (modelled from the spec) followed by
`do_execute_transaction` under the wallet's own derived signer seeds. -/
def execute_transaction (invoke : TXInstruction → Except PErr Unit)
    (w : SmartWallet) (tx : Transaction) (caller : Pubkey) (now : Int) :
    Except PErr Transaction :=
  match execute_validate w tx caller now with
  | .error e => .error e
  | .ok _ => do_execute_transaction invoke tx caller now

/-- Handler `smart_wallet::execute_transaction_derived` (`lib.rs:467-482`):
identical gating and dispatch, but signing under the sub-authority derived
from the wallet key, `index` and `bump`; the derived seeds only change the
signer presented to the instruction executor, which is absorbed in the
`invoke` oracle. -/
def execute_transaction_derived (invoke : TXInstruction → Except PErr Unit)
    (w : SmartWallet) (tx : Transaction) (caller : Pubkey) (now : Int)
    (_index : Nat) (_bump : Nat) : Except PErr Transaction :=
  match execute_validate w tx caller now with
  | .error e => .error e
  | .ok _ => do_execute_transaction invoke tx caller now

/-- The instructions an `execute_transaction` attempt actually dispatches:
none when the validator rejects, otherwise the prefix the dispatch loop
reaches. -/
def executed_ixs (invoke : TXInstruction → Except PErr Unit)
    (w : SmartWallet) (tx : Transaction) (caller : Pubkey) (now : Int) :
    List TXInstruction :=
  match execute_validate w tx caller now with
  | .error _ => []
  | .ok _ => (dispatch invoke tx.instructions).1

/-- The transaction account state after an `execute_transaction` attempt:
the updated account on success, the unchanged account on failure (the host
runtime discards the writes of a failed instruction; moreover the source
mutates the account only after the dispatch loop has fully succeeded). -/
def execute_result_state (invoke : TXInstruction → Except PErr Unit)
    (w : SmartWallet) (tx : Transaction) (caller : Pubkey) (now : Int) :
    Transaction :=
  match execute_transaction invoke w tx caller now with
  | .ok tx' => tx'
  | .error _ => tx

/-- The transaction account state after a bare `do_execute_transaction`
dispatch: the updated account on success, the unchanged account on failure. -/
def do_execute_result_state (invoke : TXInstruction → Except PErr Unit)
    (tx : Transaction) (caller : Pubkey) (now : Int) : Transaction :=
  match do_execute_transaction invoke tx caller now with
  | .ok tx' => tx'
  | .error _ => tx

/-! ### Sample data for concrete witnesses -/

/-- A sample instruction. -/
def sampleIx : TXInstruction := { program_id := 1, keys := [], data := [] }

/-- A second sample instruction with a different target program. -/
def sampleIx2 : TXInstruction := { program_id := 3, keys := [], data := [] }

/-- A sample wallet: owners `5, 6, 7`, threshold `1`, no minimum delay,
grace period `1000`. -/
def sampleWallet : SmartWallet :=
  { base := 100, bump := 0, threshold := 1, minimum_delay := 0,
    grace_period := 1000, owner_set_seqno := 0, num_transactions := 0,
    owners := [5, 6, 7] }

/-- Like `sampleWallet` but with threshold `2`. -/
def sampleWallet2 : SmartWallet :=
  { sampleWallet with threshold := 2 }

/-- A sample single-owner wallet with no prior transactions. -/
def sampleWalletOneOwner : SmartWallet :=
  { base := 100, bump := 0, threshold := 1, minimum_delay := 0,
    grace_period := DEFAULT_GRACE_PERIOD, owner_set_seqno := 0,
    num_transactions := 0, owners := [5] }

/-- Like `sampleWalletOneOwner` but with a minimum delay of `3600`. -/
def sampleWalletDelayed : SmartWallet :=
  { sampleWalletOneOwner with minimum_delay := 3600 }

/-- A pending transaction of `sampleWallet` with one approval and ETA `5000`. -/
def sampleTx : Transaction :=
  { smart_wallet := 100, index := 1, bump := 0, proposer := 5,
    instructions := [], signers := [true, false, false],
    owner_set_seqno := 0, eta := 5000, executor := 0, executed_at := -1 }

/-- Like `sampleTx` but with no ETA, immediately eligible. -/
def sampleTxReady : Transaction :=
  { sampleTx with eta := NO_ETA }

/-- Like `sampleTx` but already executed (`executed_at = 9`). -/
def sampleTxExecuted : Transaction :=
  { sampleTx with executed_at := 9 }

/-- Like `sampleTxReady` but with a stale owner-set snapshot. -/
def sampleTxStaleSeqno : Transaction :=
  { sampleTxReady with owner_set_seqno := 3 }

/-- A pending transaction of `sampleWalletOneOwner` holding one instruction. -/
def samplePendingTx : Transaction :=
  { smart_wallet := 100, index := 1, bump := 0, proposer := 5,
    instructions := [sampleIx], signers := [true], owner_set_seqno := 0,
    eta := NO_ETA, executor := 0, executed_at := -1 }

/-! ### Helper lemmas -/

theorem count_true_set_true_le (l : List Bool) :
    ∀ i, (l.set i true).count true ≤ l.count true + 1 := by
  induction l with
  | nil => intro i; simp
  | cons a t ih =>
    intro i
    cases i with
    | zero => cases a <;> simp [List.count_cons] <;> omega
    | succ n =>
      have hn := ih n
      cases a <;> simp [List.count_cons] <;> omega

theorem count_true_le_set_true (l : List Bool) :
    ∀ i, l.count true ≤ (l.set i true).count true := by
  induction l with
  | nil => intro i; simp
  | cons a t ih =>
    intro i
    cases i with
    | zero => cases a <;> simp [List.count_cons] <;> omega
    | succ n =>
      have hn := ih n
      cases a <;> simp [List.count_cons] <;> omega

theorem count_true_set_false_le (l : List Bool) :
    ∀ i, (l.set i false).count true ≤ l.count true := by
  induction l with
  | nil => intro i; simp
  | cons a t ih =>
    intro i
    cases i with
    | zero => cases a <;> simp [List.count_cons] <;> omega
    | succ n =>
      have hn := ih n
      cases a <;> simp [List.count_cons] <;> omega

theorem count_true_le_set_false_succ (l : List Bool) :
    ∀ i, l.count true ≤ (l.set i false).count true + 1 := by
  induction l with
  | nil => intro i; simp
  | cons a t ih =>
    intro i
    cases i with
    | zero => cases a <;> simp [List.count_cons] <;> omega
    | succ n =>
      have hn := ih n
      cases a <;> simp [List.count_cons] <;> omega

/-- Dispatching a list whose prefix succeeds and whose next element fails
stops right after the failing element and reports its error. -/
theorem dispatch_fails_after_prefix (invoke : TXInstruction → Except PErr Unit)
    (bad : TXInstruction) (e : PErr) (post : List TXInstruction)
    (hbad : invoke bad = .error e) :
    ∀ pre, (∀ ix ∈ pre, invoke ix = .ok ()) →
      dispatch invoke (pre ++ bad :: post) = (pre ++ [bad], .error e) := by
  intro pre
  induction pre with
  | nil => intro _; simp [dispatch, hbad]
  | cons a t ih =>
    intro hpre
    have ha : invoke a = .ok () := hpre a (by simp)
    have ht : ∀ ix ∈ t, invoke ix = .ok () := fun ix hx => hpre ix (by simp [hx])
    simp [dispatch, ha, ih ht]

/-- `u64::checked_add` by one, when it succeeds, yields the successor. -/
theorem u64_checked_add_one_eq {a n : Nat} (h : u64_checked_add a 1 = some n) :
    n = a + 1 := by
  unfold u64_checked_add at h
  split at h
  · exact (Option.some.inj h).symm
  · exact Option.noConfusion h

/-- The derived-authority entry point gates and dispatches exactly like the
plain one; only the signer seeds differ. -/
theorem execute_transaction_derived_eq (invoke : TXInstruction → Except PErr Unit)
    (w : SmartWallet) (tx : Transaction) (caller : Pubkey) (now : Int)
    (idx bump : Nat) :
    execute_transaction_derived invoke w tx caller now idx bump
      = execute_transaction invoke w tx caller now := rfl

/-- Inversion: a validator pass implies every gate held. -/
theorem execute_validate_ok_inv (w : SmartWallet) (tx : Transaction)
    (caller : Pubkey) (now : Int)
    (h : execute_validate w tx caller now = .ok ()) :
    (∃ i, owner_index w caller = .ok i) ∧ tx.executed_at = -1 ∧
    tx.owner_set_seqno = w.owner_set_seqno ∧ w.threshold ≤ tally tx ∧
    is_executable now tx w = .Ready := by
  unfold execute_validate at h
  cases howner : owner_index w caller with
  | error e => rw [howner] at h; exact Except.noConfusion h
  | ok i =>
    rw [howner] at h
    by_cases h1 : tx.executed_at ≠ -1
    · rw [if_pos h1] at h; exact Except.noConfusion h
    · rw [if_neg h1] at h
      by_cases h2 : tx.owner_set_seqno ≠ w.owner_set_seqno
      · rw [if_pos h2] at h; exact Except.noConfusion h
      · rw [if_neg h2] at h
        by_cases h3 : tally tx < w.threshold
        · rw [if_pos h3] at h; exact Except.noConfusion h
        · rw [if_neg h3] at h
          cases hex : is_executable now tx w with
          | Ready =>
            exact ⟨⟨i, rfl⟩, not_not.mp h1, not_not.mp h2,
              Nat.le_of_not_lt h3, rfl⟩
          | NotYetDue => rw [hex] at h; exact Except.noConfusion h
          | Stale => rw [hex] at h; exact Except.noConfusion h

/-- Inversion: a successful execution implies the validator passed, every
stored instruction was invoked successfully, and the returned state is the
input state sealed with `executor = caller` and `executed_at = now`. -/
theorem execute_ok_inv (invoke : TXInstruction → Except PErr Unit)
    (w : SmartWallet) (tx : Transaction) (caller : Pubkey) (now : Int)
    (tx' : Transaction)
    (h : execute_transaction invoke w tx caller now = .ok tx') :
    execute_validate w tx caller now = .ok () ∧
    (dispatch invoke tx.instructions).2 = .ok () ∧
    tx' = { tx with executor := caller, executed_at := now } := by
  unfold execute_transaction at h
  cases hv : execute_validate w tx caller now with
  | error e => rw [hv] at h; exact Except.noConfusion h
  | ok u =>
    cases u
    rw [hv] at h
    unfold do_execute_transaction at h
    cases hd : (dispatch invoke tx.instructions).2 with
    | error e => rw [hd] at h; exact Except.noConfusion h
    | ok u2 =>
      cases u2
      rw [hd] at h
      exact ⟨rfl, rfl, (Except.ok.inj h).symm⟩

/-- When the validator rejects, nothing is dispatched and the attempt
returns the validator's error with the transaction unchanged. -/
theorem execute_of_validate_error (invoke : TXInstruction → Except PErr Unit)
    (w : SmartWallet) (tx : Transaction) (caller : Pubkey) (now : Int)
    (e : PErr) (h : execute_validate w tx caller now = .error e) :
    execute_transaction invoke w tx caller now = .error e ∧
    executed_ixs invoke w tx caller now = [] ∧
    execute_result_state invoke w tx caller now = tx := by
  have h1 : execute_transaction invoke w tx caller now = .error e := by
    simp [execute_transaction, h]
  exact ⟨h1, by simp [executed_ixs, h], by simp [execute_result_state, h1]⟩

/-! ### Claim C1 -/

/-- C1: whenever the number of `true` entries in `signers` is strictly below
the wallet's threshold, neither `execute_transaction` nor
`execute_transaction_derived` can succeed, no operation is dispatched, the
state is unchanged, and — the earlier gates (owner, not yet executed, fresh
owner set) being satisfied — the attempt fails with `NotEnoughSigners`. -/
theorem execute_requires_quorum
    (invoke : TXInstruction → Except PErr Unit) (w : SmartWallet)
    (tx : Transaction) (caller : Pubkey) (now : Int) (idx bump : Nat)
    (h : tally tx < w.threshold) :
    (∀ tx', execute_transaction invoke w tx caller now ≠ .ok tx') ∧
    (∀ tx', execute_transaction_derived invoke w tx caller now idx bump
       ≠ .ok tx') ∧
    executed_ixs invoke w tx caller now = [] ∧
    execute_result_state invoke w tx caller now = tx ∧
    (∀ i, owner_index w caller = .ok i → tx.executed_at = -1 →
       tx.owner_set_seqno = w.owner_set_seqno →
       execute_transaction invoke w tx caller now
         = .error (.err .NotEnoughSigners) ∧
       execute_transaction_derived invoke w tx caller now idx bump
         = .error (.err .NotEnoughSigners)) := by
  have hne : ∀ tx', execute_transaction invoke w tx caller now ≠ .ok tx' := by
    intro tx' hok
    have hv := (execute_ok_inv invoke w tx caller now tx' hok).1
    have := (execute_validate_ok_inv w tx caller now hv).2.2.2.1
    omega
  have hveq : ∃ e, execute_validate w tx caller now = .error e := by
    cases hv : execute_validate w tx caller now with
    | error e => exact ⟨e, rfl⟩
    | ok u =>
      cases u
      have := (execute_validate_ok_inv w tx caller now hv).2.2.2.1
      omega
  obtain ⟨e, he⟩ := hveq
  have hrest := execute_of_validate_error invoke w tx caller now e he
  refine ⟨hne, ?_, hrest.2.1, hrest.2.2, ?_⟩
  · intro tx'
    rw [execute_transaction_derived_eq]
    exact hne tx'
  · intro i hi h1 h2
    have hv : execute_validate w tx caller now
        = .error (.err .NotEnoughSigners) := by
      simp [execute_validate, hi, h1, h2, h]
    have hx := execute_of_validate_error invoke w tx caller now _ hv
    exact ⟨hx.1, by rw [execute_transaction_derived_eq]; exact hx.1⟩

/-- C1 witness: one approval against a threshold of two. -/
theorem execute_requires_quorum_witness :
    execute_transaction (fun _ => .ok ()) sampleWallet2 sampleTx 5 5500
      = .error (.err .NotEnoughSigners) ∧
    executed_ixs (fun _ => .ok ()) sampleWallet2 sampleTx 5 5500 = [] := by
  have h := execute_requires_quorum (fun _ => .ok ()) sampleWallet2 sampleTx
    5 5500 0 0 (by decide)
  exact ⟨(h.2.2.2.2 0 rfl rfl rfl).1, h.2.2.1⟩

/-! ### Claim C2 -/

/-- C2: execution succeeds at most once — once `executed_at` differs from the
`-1` sentinel every further attempt fails (with `AlreadyExecuted` when the
caller resolves as an owner), dispatches nothing and changes no state; and
any successful execution starts from the unset sentinel and sets
`executed_at` to the current (non-negative) timestamp. -/
theorem execute_at_most_once
    (invoke : TXInstruction → Except PErr Unit) (w : SmartWallet)
    (tx : Transaction) (caller : Pubkey) (now : Int) (idx bump : Nat)
    (hnow : 0 ≤ now) (hexec : tx.executed_at ≠ -1) :
    (∀ tx', execute_transaction invoke w tx caller now ≠ .ok tx') ∧
    (∀ tx', execute_transaction_derived invoke w tx caller now idx bump
       ≠ .ok tx') ∧
    executed_ixs invoke w tx caller now = [] ∧
    execute_result_state invoke w tx caller now = tx ∧
    (∀ i, owner_index w caller = .ok i →
       execute_transaction invoke w tx caller now
         = .error (.err .AlreadyExecuted) ∧
       execute_transaction_derived invoke w tx caller now idx bump
         = .error (.err .AlreadyExecuted)) ∧
    (∀ tx2 tx2' : Transaction,
       execute_transaction invoke w tx2 caller now = .ok tx2' →
       tx2.executed_at = -1 ∧ tx2'.executed_at = now ∧
       tx2'.executed_at ≠ -1) := by
  have hne : ∀ tx', execute_transaction invoke w tx caller now ≠ .ok tx' := by
    intro tx' hok
    have hv := (execute_ok_inv invoke w tx caller now tx' hok).1
    exact hexec (execute_validate_ok_inv w tx caller now hv).2.1
  have hveq : ∃ e, execute_validate w tx caller now = .error e := by
    cases hv : execute_validate w tx caller now with
    | error e => exact ⟨e, rfl⟩
    | ok u =>
      cases u
      exact absurd (execute_validate_ok_inv w tx caller now hv).2.1 hexec
  obtain ⟨e, he⟩ := hveq
  have hrest := execute_of_validate_error invoke w tx caller now e he
  refine ⟨hne, ?_, hrest.2.1, hrest.2.2, ?_, ?_⟩
  · intro tx'
    rw [execute_transaction_derived_eq]
    exact hne tx'
  · intro i hi
    have hv : execute_validate w tx caller now
        = .error (.err .AlreadyExecuted) := by
      simp [execute_validate, hi, hexec]
    have hx := execute_of_validate_error invoke w tx caller now _ hv
    exact ⟨hx.1, by rw [execute_transaction_derived_eq]; exact hx.1⟩
  · intro tx2 tx2' hok
    obtain ⟨hv, _, hstate⟩ := execute_ok_inv invoke w tx2 caller now tx2' hok
    have h1 := (execute_validate_ok_inv w tx2 caller now hv).2.1
    refine ⟨h1, ?_, ?_⟩ <;> rw [hstate] <;> simp <;> omega

/-- C2 witness: a second attempt on an executed transaction is rejected with
`AlreadyExecuted`. -/
theorem execute_at_most_once_witness :
    execute_transaction (fun _ => .ok ()) sampleWallet sampleTxExecuted 5 10
      = .error (.err .AlreadyExecuted) ∧
    execute_result_state (fun _ => .ok ()) sampleWallet sampleTxExecuted 5 10
      = sampleTxExecuted := by
  have h := execute_at_most_once (fun _ => .ok ()) sampleWallet
    sampleTxExecuted 5 10 0 0 (by decide) (by decide)
  exact ⟨(h.2.2.2.2.1 0 rfl).1, h.2.2.2.1⟩

/-! ### Claim C3 -/

/-- C3: when the transaction's `owner_set_seqno` snapshot differs from the
wallet's current `owner_set_seqno`, no execute attempt can succeed, nothing
is dispatched, the state is unchanged — with no assumption on the tally or
the current time — and, the caller resolving as an owner and the transaction
not yet executed, the attempt fails with `OwnerSetChanged`. -/
theorem execute_stale_owner_set_rejected
    (invoke : TXInstruction → Except PErr Unit) (w : SmartWallet)
    (tx : Transaction) (caller : Pubkey) (now : Int) (idx bump : Nat)
    (hseq : tx.owner_set_seqno ≠ w.owner_set_seqno) :
    (∀ tx', execute_transaction invoke w tx caller now ≠ .ok tx') ∧
    (∀ tx', execute_transaction_derived invoke w tx caller now idx bump
       ≠ .ok tx') ∧
    executed_ixs invoke w tx caller now = [] ∧
    execute_result_state invoke w tx caller now = tx ∧
    (∀ i, owner_index w caller = .ok i → tx.executed_at = -1 →
       execute_transaction invoke w tx caller now
         = .error (.err .OwnerSetChanged) ∧
       execute_transaction_derived invoke w tx caller now idx bump
         = .error (.err .OwnerSetChanged)) := by
  have hne : ∀ tx', execute_transaction invoke w tx caller now ≠ .ok tx' := by
    intro tx' hok
    have hv := (execute_ok_inv invoke w tx caller now tx' hok).1
    exact hseq (execute_validate_ok_inv w tx caller now hv).2.2.1
  have hveq : ∃ e, execute_validate w tx caller now = .error e := by
    cases hv : execute_validate w tx caller now with
    | error e => exact ⟨e, rfl⟩
    | ok u =>
      cases u
      exact absurd (execute_validate_ok_inv w tx caller now hv).2.2.1 hseq
  obtain ⟨e, he⟩ := hveq
  have hrest := execute_of_validate_error invoke w tx caller now e he
  refine ⟨hne, ?_, hrest.2.1, hrest.2.2, ?_⟩
  · intro tx'
    rw [execute_transaction_derived_eq]
    exact hne tx'
  · intro i hi h1
    have hv : execute_validate w tx caller now
        = .error (.err .OwnerSetChanged) := by
      simp [execute_validate, hi, h1, hseq]
    have hx := execute_of_validate_error invoke w tx caller now _ hv
    exact ⟨hx.1, by rw [execute_transaction_derived_eq]; exact hx.1⟩

/-- C3 witness: stale snapshot (`3` vs `0`) with a full tally and no ETA. -/
theorem execute_stale_owner_set_rejected_witness :
    execute_transaction (fun _ => .ok ()) sampleWallet sampleTxStaleSeqno 5 10
      = .error (.err .OwnerSetChanged) ∧
    executed_ixs (fun _ => .ok ()) sampleWallet sampleTxStaleSeqno 5 10
      = [] := by
  have h := execute_stale_owner_set_rejected (fun _ => .ok ()) sampleWallet
    sampleTxStaleSeqno 5 10 0 0 (by decide)
  exact ⟨(h.2.2.2.2 0 rfl rfl).1, h.2.2.1⟩

/-! ### Claim C4 -/

/-- C4: with an ETA set, execution strictly before the ETA is rejected with
`TransactionNotReady`, execution strictly after `eta + grace_period` is
rejected with `TransactionIsStale`, and in between the timelock gate answers
`Ready` so the validator passes; with the `NO_ETA` sentinel there is no time
gate.  (The other four gates are assumed satisfied.) -/
theorem execute_timelock_gate
    (invoke : TXInstruction → Except PErr Unit) (w : SmartWallet)
    (tx : Transaction) (caller : Pubkey) (now : Int) (idx bump : Nat)
    (i : Nat) (howner : owner_index w caller = .ok i)
    (hexec : tx.executed_at = -1)
    (hseq : tx.owner_set_seqno = w.owner_set_seqno)
    (htally : w.threshold ≤ tally tx)
    (hgrace : 0 ≤ w.grace_period) :
    (tx.eta = NO_ETA →
       is_executable now tx w = .Ready ∧
       execute_validate w tx caller now = .ok ()) ∧
    (tx.eta ≠ NO_ETA → now < tx.eta →
       is_executable now tx w = .NotYetDue ∧
       execute_transaction invoke w tx caller now
         = .error (.err .TransactionNotReady) ∧
       execute_transaction_derived invoke w tx caller now idx bump
         = .error (.err .TransactionNotReady)) ∧
    (tx.eta ≠ NO_ETA → tx.eta + w.grace_period < now →
       is_executable now tx w = .Stale ∧
       execute_transaction invoke w tx caller now
         = .error (.err .TransactionIsStale) ∧
       execute_transaction_derived invoke w tx caller now idx bump
         = .error (.err .TransactionIsStale)) ∧
    (tx.eta ≠ NO_ETA → tx.eta ≤ now → now ≤ tx.eta + w.grace_period →
       is_executable now tx w = .Ready ∧
       execute_validate w tx caller now = .ok ()) := by
  have htally' : ¬ tally tx < w.threshold := Nat.not_lt.mpr htally
  have hval : ∀ o, is_executable now tx w = o →
      execute_validate w tx caller now
        = (match o with
           | .Ready => .ok ()
           | .NotYetDue => .error (.err .TransactionNotReady)
           | .Stale => .error (.err .TransactionIsStale)) := by
    intro o ho
    simp [execute_validate, howner, hexec, hseq, htally', ho]
  refine ⟨?_, ?_, ?_, ?_⟩
  · intro hEta
    have hx : is_executable now tx w = .Ready := by simp [is_executable, hEta]
    exact ⟨hx, hval _ hx⟩
  · intro hEta hlt
    have hx : is_executable now tx w = .NotYetDue := by
      simp [is_executable, hEta, hlt]
    have hv := hval _ hx
    have he := execute_of_validate_error invoke w tx caller now _ hv
    exact ⟨hx, he.1, by rw [execute_transaction_derived_eq]; exact he.1⟩
  · intro hEta hgt
    have hx : is_executable now tx w = .Stale := by
      unfold is_executable
      rw [if_neg hEta, if_neg (by omega : ¬ now < tx.eta),
        if_pos (by omega : now > tx.eta + w.grace_period)]
    have hv := hval _ hx
    have he := execute_of_validate_error invoke w tx caller now _ hv
    exact ⟨hx, he.1, by rw [execute_transaction_derived_eq]; exact he.1⟩
  · intro hEta hge hle
    have hx : is_executable now tx w = .Ready := by
      unfold is_executable
      rw [if_neg hEta, if_neg (by omega : ¬ now < tx.eta),
        if_neg (by omega : ¬ now > tx.eta + w.grace_period)]
    exact ⟨hx, hval _ hx⟩

/-- C4 witness: `eta = 5000`, `grace_period = 1000`; `now = 4500` is not yet
due, `now = 5500` is ready, `now = 6500` is stale; no ETA is always ready. -/
theorem execute_timelock_gate_witness :
    is_executable 4500 sampleTx sampleWallet = .NotYetDue ∧
    execute_transaction (fun _ => .ok ()) sampleWallet sampleTx 5 4500
      = .error (.err .TransactionNotReady) ∧
    is_executable 5500 sampleTx sampleWallet = .Ready ∧
    execute_validate sampleWallet sampleTx 5 5500 = .ok () ∧
    is_executable 6500 sampleTx sampleWallet = .Stale ∧
    execute_transaction (fun _ => .ok ()) sampleWallet sampleTx 5 6500
      = .error (.err .TransactionIsStale) ∧
    is_executable 5000 sampleTxReady sampleWallet = .Ready ∧
    execute_validate sampleWallet sampleTxReady 5 5000 = .ok () := by
  have h45 := execute_timelock_gate (fun _ => .ok ()) sampleWallet sampleTx
    5 4500 0 0 0 rfl rfl rfl (by decide) (by decide)
  have h55 := execute_timelock_gate (fun _ => .ok ()) sampleWallet sampleTx
    5 5500 0 0 0 rfl rfl rfl (by decide) (by decide)
  have h65 := execute_timelock_gate (fun _ => .ok ()) sampleWallet sampleTx
    5 6500 0 0 0 rfl rfl rfl (by decide) (by decide)
  have hNo := execute_timelock_gate (fun _ => .ok ()) sampleWallet
    sampleTxReady 5 5000 0 0 0 rfl rfl rfl (by decide) (by decide)
  obtain ⟨ha, hb, -⟩ := h45.2.1 (by decide) (by decide)
  obtain ⟨hc, hd⟩ := h55.2.2.2 (by decide) (by decide) (by decide)
  obtain ⟨he, hf, -⟩ := h65.2.2.1 (by decide) (by decide)
  obtain ⟨hg, hh⟩ := hNo.1 (by decide)
  exact ⟨ha, hb, hc, hd, he, hf, hg, hh⟩

/-! ### Claim C7 -/

/-- The post-delay ETA window guard of `create_transaction_with_timelock`
never yields `InvalidETA`: its errors are the two `invariant!` messages,
`overflow` and `DelayTooHigh`. -/
theorem eta_window_guard_ne_invalid_eta (eta now : Int) (e : PErr)
    (h : (if eta ≠ NO_ETA then
            if eta < 0 then some (PErr.invariantViolated "ETA must be positive")
            else
              match i64_checked_sub eta now with
              | none => some PErr.overflow
              | some delay =>
                if delay < 0 then
                  some (PErr.invariantViolated "ETA must be in the future")
                else if ¬ delay ≤ MAX_DELAY_SECONDS then
                  some (PErr.err .DelayTooHigh)
                else none
          else none) = some e) :
    e ≠ .err .InvalidETA := by
  intro hcontra
  subst hcontra
  by_cases h1 : eta ≠ NO_ETA
  · rw [if_pos h1] at h
    by_cases h2 : eta < 0
    · rw [if_pos h2] at h
      exact PErr.noConfusion (Option.some.inj h)
    · rw [if_neg h2] at h
      cases hs : i64_checked_sub eta now with
      | none =>
        rw [hs] at h
        exact PErr.noConfusion (Option.some.inj h)
      | some delay =>
        rw [hs] at h
        dsimp only at h
        by_cases h3 : delay < 0
        · rw [if_pos h3] at h
          exact PErr.noConfusion (Option.some.inj h)
        · rw [if_neg h3] at h
          by_cases h4 : ¬ delay ≤ MAX_DELAY_SECONDS
          · rw [if_pos h4] at h
            exact ErrorCode.noConfusion (PErr.err.inj (Option.some.inj h))
          · rw [if_neg h4] at h
            exact Option.noConfusion h
  · rw [if_neg h1] at h
    exact Option.noConfusion h

/-- C7 counterexample: with `minimum_delay = 3600` at `now = 1000`, a
creation passing the `NO_ETA` sentinel is rejected with `InvalidETA`: the
minimum-delay gate compares `-1 ≥ now + minimum_delay` and so fails even
though no ETA was given. -/
theorem timelock_creation_no_eta_rejected :
    create_transaction_with_timelock sampleWalletDelayed 100 5 0 [] NO_ETA 1000
      = .error (.err .InvalidETA) := rfl

/-- C7 (amended): `create_transaction_with_timelock` fails with `InvalidETA`
exactly when `minimum_delay ≠ 0` and `eta < now + minimum_delay` — including
when `eta` is the `NO_ETA` sentinel; an ETA beyond `now + 365` days is
rejected with `DelayTooHigh`, not `InvalidETA`; and with `minimum_delay = 0`
and no ETA given the creation succeeds with no time gate. -/
theorem timelock_creation_eta_gate
    (w : SmartWallet) (w_key proposer : Pubkey) (bump : Nat)
    (instructions : List TXInstruction) (eta now : Int) (i : Nat)
    (howner : owner_index w proposer = .ok i)
    (hlo : I64_MIN ≤ now + w.minimum_delay)
    (hhi : now + w.minimum_delay ≤ I64_MAX) :
    (w.minimum_delay ≠ 0 → eta < now + w.minimum_delay →
       create_transaction_with_timelock w w_key proposer bump instructions
         eta now = .error (.err .InvalidETA)) ∧
    (create_transaction_with_timelock w w_key proposer bump instructions
         eta now = .error (.err .InvalidETA) →
       w.minimum_delay ≠ 0 ∧ eta < now + w.minimum_delay) ∧
    (w.minimum_delay = 0 → eta = NO_ETA →
       ∀ n, u64_checked_add w.num_transactions 1 = some n →
         create_transaction_with_timelock w w_key proposer bump instructions
           eta now
           = .ok ({ w with num_transactions := n },
                  { smart_wallet := w_key, index := w.num_transactions,
                    bump := bump, proposer := proposer,
                    instructions := instructions,
                    signers := (List.replicate w.owners.length false).set i
                      true,
                    owner_set_seqno := w.owner_set_seqno, eta := eta,
                    executor := 0, executed_at := -1 })) ∧
    (w.minimum_delay = 0 → 0 ≤ now → now ≤ I64_MAX → 0 ≤ eta →
       eta ≤ I64_MAX → MAX_DELAY_SECONDS < eta - now →
       create_transaction_with_timelock w w_key proposer bump instructions
         eta now = .error (.err .DelayTooHigh)) := by
  have hadd : i64_checked_add now w.minimum_delay
      = some (now + w.minimum_delay) := by
    unfold i64_checked_add
    rw [if_pos ⟨hlo, hhi⟩]
  refine ⟨?_, ?_, ?_, ?_⟩
  · intro hmin hlt
    simp [create_transaction_with_timelock, howner, hmin, hadd, hlt]
  · intro h
    by_cases hmin : w.minimum_delay ≠ 0
    · by_cases hlt : eta < now + w.minimum_delay
      · exact ⟨hmin, hlt⟩
      · exfalso
        unfold create_transaction_with_timelock at h
        rw [howner] at h
        dsimp only at h
        rw [if_pos hmin, hadd] at h
        dsimp only at h
        rw [if_neg hlt] at h
        dsimp only at h
        cases hg2 : (if eta ≠ NO_ETA then
               if eta < 0 then
                 some (PErr.invariantViolated "ETA must be positive")
               else
                 match i64_checked_sub eta now with
                 | none => some PErr.overflow
                 | some delay =>
                   if delay < 0 then
                     some (PErr.invariantViolated "ETA must be in the future")
                   else if ¬ delay ≤ MAX_DELAY_SECONDS then
                     some (PErr.err .DelayTooHigh)
                   else none
             else none) with
        | some e =>
          rw [hg2] at h
          exact eta_window_guard_ne_invalid_eta eta now e hg2
            (Except.error.inj h)
        | none =>
          rw [hg2] at h
          dsimp only at h
          cases hadd2 : u64_checked_add w.num_transactions 1 with
          | none =>
            rw [hadd2] at h
            exact PErr.noConfusion (Except.error.inj h)
          | some n =>
            rw [hadd2] at h
            exact Except.noConfusion h
    · exfalso
      unfold create_transaction_with_timelock at h
      rw [howner] at h
      dsimp only at h
      rw [if_neg hmin] at h
      dsimp only at h
      cases hg2 : (if eta ≠ NO_ETA then
             if eta < 0 then
               some (PErr.invariantViolated "ETA must be positive")
             else
               match i64_checked_sub eta now with
               | none => some PErr.overflow
               | some delay =>
                 if delay < 0 then
                   some (PErr.invariantViolated "ETA must be in the future")
                 else if ¬ delay ≤ MAX_DELAY_SECONDS then
                   some (PErr.err .DelayTooHigh)
                 else none
           else none) with
      | some e =>
        rw [hg2] at h
        exact eta_window_guard_ne_invalid_eta eta now e hg2
          (Except.error.inj h)
      | none =>
        rw [hg2] at h
        dsimp only at h
        cases hadd2 : u64_checked_add w.num_transactions 1 with
        | none =>
          rw [hadd2] at h
          exact PErr.noConfusion (Except.error.inj h)
        | some n =>
          rw [hadd2] at h
          exact Except.noConfusion h
  · intro hmin0 hEta n hn
    simp [create_transaction_with_timelock, howner, hmin0, hEta, hn]
  · intro hmin0 hn0 hnmax he0 hemax hbig
    have hImin : I64_MIN = -9223372036854775808 := by norm_num [I64_MIN]
    have hImax : I64_MAX = 9223372036854775807 := by norm_num [I64_MAX]
    have hMax : MAX_DELAY_SECONDS = 31536000 := by
      norm_num [MAX_DELAY_SECONDS, SECONDS_PER_DAY]
    rw [hImax] at hnmax hemax
    rw [hMax] at hbig
    have hEta : eta ≠ NO_ETA := by
      simp only [NO_ETA]
      omega
    have hsub : i64_checked_sub eta now = some (eta - now) := by
      unfold i64_checked_sub
      rw [if_pos ⟨by rw [hImin]; omega, by rw [hImax]; omega⟩]
    simp [create_transaction_with_timelock, howner, hmin0, hEta, hsub,
      (by omega : ¬ eta < 0), (by omega : ¬ eta - now < 0),
      (by rw [hMax]; omega : ¬ eta - now ≤ MAX_DELAY_SECONDS)]
    rw [if_neg (by omega : ¬ eta < 0), if_neg (by omega : ¬ eta < now)]

/-- C7 witness: the `minimum_delay = 3600`, `t = 1000`, `eta = 4000`
scenario is rejected with `InvalidETA`; with `minimum_delay = 0` and no ETA,
creation succeeds with no time gate. -/
theorem timelock_creation_eta_gate_witness :
    create_transaction_with_timelock sampleWalletDelayed 100 5 0 [] 4000 1000
      = .error (.err .InvalidETA) ∧
    create_transaction_with_timelock sampleWalletOneOwner 100 5 0 [] NO_ETA
      1000
      = .ok ({ sampleWalletOneOwner with num_transactions := 1 },
             { smart_wallet := 100,
               index := sampleWalletOneOwner.num_transactions, bump := 0,
               proposer := 5, instructions := [],
               signers := (List.replicate
                 sampleWalletOneOwner.owners.length false).set 0 true,
               owner_set_seqno := sampleWalletOneOwner.owner_set_seqno,
               eta := NO_ETA, executor := 0, executed_at := -1 }) := by
  have h1 := (timelock_creation_eta_gate sampleWalletDelayed 100 5 0 [] 4000
    1000 0 rfl (by decide) (by decide)).1 (by decide) (by decide)
  have h2 := (timelock_creation_eta_gate sampleWalletOneOwner 100 5 0 []
    NO_ETA 1000 0 rfl (by decide) (by decide)).2.2.1 rfl rfl 1 rfl
  exact ⟨h1, h2⟩

/-- The wallet `create_smart_wallet` builds for base `9`, two owners `[1, 2]`
and threshold `5`. -/
def badThresholdWallet : SmartWallet :=
  { base := 9, bump := 0, threshold := 5, minimum_delay := 0,
    grace_period := DEFAULT_GRACE_PERIOD, owner_set_seqno := 0,
    num_transactions := 0, owners := [1, 2] }

/-- C5: contrary to the claim (and to the message of the never-raised
`InvalidThreshold` error code), `create_smart_wallet` performs no threshold
validation: a threshold of `5` with two owners is accepted, and so is a
threshold of `0`, so `1 ≤ threshold ≤ owners.length` need not hold after
creation. -/
theorem create_smart_wallet_accepts_invalid_threshold :
    create_smart_wallet 9 0 2 [1, 2] 5 0 = .ok badThresholdWallet ∧
    badThresholdWallet.owners.length < badThresholdWallet.threshold ∧
    create_smart_wallet 9 0 2 [1, 2] 0 0
      = .ok { badThresholdWallet with threshold := 0 } ∧
    ({ badThresholdWallet with threshold := 0 } : SmartWallet).threshold < 1 :=
  ⟨rfl, by decide, rfl, by decide⟩

/-! ### Claim C6 -/

/-- The transaction `create_transaction` builds from `sampleWalletOneOwner`
with buffer size `1` and blank instruction `sampleIx`. -/
def sampleCreatedTx : Transaction :=
  { smart_wallet := 100, index := 1, bump := 0, proposer := 5,
    instructions := [sampleIx], signers := [true], owner_set_seqno := 0,
    eta := NO_ETA, executor := 0, executed_at := -1 }

/-- C6 counterexample: on a wallet whose counter is `0`, `create_transaction`
assigns the new transaction index `1`, not the counter value `0` at creation
time; and `append_transaction` increments the proposal counter although it
creates no proposal. -/
theorem transaction_index_counterexample :
    create_transaction sampleWalletOneOwner 100 5 0 1 [sampleIx]
      = .ok ({ sampleWalletOneOwner with num_transactions := 1 },
             sampleCreatedTx) ∧
    sampleCreatedTx.index ≠ sampleWalletOneOwner.num_transactions ∧
    append_transaction sampleWalletOneOwner samplePendingTx 0 sampleIx 0
      = .ok ({ sampleWalletOneOwner with num_transactions := 1 },
             { samplePendingTx with instructions := [sampleIx] }) :=
  ⟨rfl, by decide, rfl⟩

/-- C6 (amended): every successful `create_transaction` increments the
counter by one and assigns the new transaction's index the incremented value
(`old counter + 1`); every successful `create_transaction_with_timelock`
assigns the counter value before the increment and increments by one; and
`append_transaction` also increments the counter by one although it creates
no transaction, so the counter is not a creation count and indices are not
unique across the two creation entry points. -/
theorem transaction_counter_assignment
    (w : SmartWallet) (w_key proposer : Pubkey) (bump buffer_size : Nat)
    (blank_xacts instructions : List TXInstruction) (eta now : Int)
    (tx0 : Transaction) (ix : TXInstruction) (slot : Nat) :
    (∀ w' tx,
       create_transaction w w_key proposer bump buffer_size blank_xacts
         = .ok (w', tx) →
       tx.index = w.num_transactions + 1 ∧
       w'.num_transactions = w.num_transactions + 1) ∧
    (∀ w' tx,
       create_transaction_with_timelock w w_key proposer bump instructions
         eta now = .ok (w', tx) →
       tx.index = w.num_transactions ∧
       w'.num_transactions = w.num_transactions + 1) ∧
    (∀ w' tx, append_transaction w tx0 bump ix slot = .ok (w', tx) →
       w'.num_transactions = w.num_transactions + 1) := by
  refine ⟨?_, ?_, ?_⟩
  · intro w' tx h
    unfold create_transaction at h
    cases hh : blank_xacts.head? with
    | none => rw [hh] at h; exact Except.noConfusion h
    | some blank =>
      rw [hh] at h
      cases hadd : u64_checked_add w.num_transactions 1 with
      | none => rw [hadd] at h; exact Except.noConfusion h
      | some n =>
        rw [hadd] at h
        cases hoi : owner_index w proposer with
        | error e => rw [hoi] at h; exact Except.noConfusion h
        | ok i =>
          rw [hoi] at h
          obtain ⟨hw, htx⟩ := Prod.mk.inj (Except.ok.inj h)
          rw [← hw, ← htx]
          exact ⟨u64_checked_add_one_eq hadd, u64_checked_add_one_eq hadd⟩
  · intro w' tx h
    unfold create_transaction_with_timelock at h
    cases hoi : owner_index w proposer with
    | error e => rw [hoi] at h; exact Except.noConfusion h
    | ok i =>
      rw [hoi] at h
      cases hg1 : (if w.minimum_delay ≠ 0 then
             match i64_checked_add now w.minimum_delay with
             | none => some PErr.overflow
             | some bound =>
               if eta < bound then some (PErr.err .InvalidETA) else none
           else none) with
      | some e => rw [hg1] at h; exact Except.noConfusion h
      | none =>
        rw [hg1] at h
        cases hg2 : (if eta ≠ NO_ETA then
               if eta < 0 then some (PErr.invariantViolated "ETA must be positive")
               else
                 match i64_checked_sub eta now with
                 | none => some PErr.overflow
                 | some delay =>
                   if delay < 0 then
                     some (PErr.invariantViolated "ETA must be in the future")
                   else if ¬ delay ≤ MAX_DELAY_SECONDS then
                     some (PErr.err .DelayTooHigh)
                   else none
             else none) with
        | some e => rw [hg2] at h; exact Except.noConfusion h
        | none =>
          rw [hg2] at h
          cases hadd : u64_checked_add w.num_transactions 1 with
          | none => rw [hadd] at h; exact Except.noConfusion h
          | some n =>
            rw [hadd] at h
            obtain ⟨hw, htx⟩ := Prod.mk.inj (Except.ok.inj h)
            rw [← hw, ← htx]
            exact ⟨rfl, u64_checked_add_one_eq hadd⟩
  · intro w' tx h
    unfold append_transaction at h
    by_cases hb : tx0.bump ≠ bump
    · rw [if_pos hb] at h; exact Except.noConfusion h
    · rw [if_neg hb] at h
      by_cases hs : slot < tx0.instructions.length
      · rw [if_pos hs] at h
        cases hadd : u64_checked_add w.num_transactions 1 with
        | none => rw [hadd] at h; exact Except.noConfusion h
        | some n =>
          rw [hadd] at h
          obtain ⟨hw, _⟩ := Prod.mk.inj (Except.ok.inj h)
          rw [← hw]
          exact u64_checked_add_one_eq hadd
      · rw [if_neg hs] at h; exact Except.noConfusion h

/-- C6 amended-claim witness: concrete instance of the first and third
conjuncts on `sampleWalletOneOwner`. -/
theorem transaction_counter_assignment_witness :
    create_transaction sampleWalletOneOwner 100 5 0 1 [sampleIx]
      = .ok ({ sampleWalletOneOwner with num_transactions := 1 },
             sampleCreatedTx) ∧
    sampleCreatedTx.index = sampleWalletOneOwner.num_transactions + 1 := by
  have h := (transaction_counter_assignment sampleWalletOneOwner 100 5 0 1
    [sampleIx] [] NO_ETA 0 samplePendingTx sampleIx 0).1
  exact ⟨rfl, (h _ _ rfl).1⟩

/-! ### Claim C8 -/

/-- C8: once dispatch begins, the first failing instruction aborts the run —
the error propagates, the instructions after the failing one are not
invoked, and the transaction is not marked executed: `executor` and
`executed_at` are left unchanged, so it remains pending and re-executable. -/
theorem dispatch_aborts_on_failure
    (invoke : TXInstruction → Except PErr Unit) (tx : Transaction)
    (caller : Pubkey) (now : Int) (pre post : List TXInstruction)
    (bad : TXInstruction) (e : PErr)
    (hins : tx.instructions = pre ++ bad :: post)
    (hpre : ∀ ix ∈ pre, invoke ix = .ok ())
    (hbad : invoke bad = .error e) :
    do_execute_transaction invoke tx caller now = .error e ∧
    (dispatch invoke tx.instructions).1 = pre ++ [bad] ∧
    do_execute_result_state invoke tx caller now = tx ∧
    (do_execute_result_state invoke tx caller now).executed_at
      = tx.executed_at ∧
    (do_execute_result_state invoke tx caller now).executor = tx.executor := by
  have hd := dispatch_fails_after_prefix invoke bad e post hbad pre hpre
  have h1 : do_execute_transaction invoke tx caller now = .error e := by
    simp [do_execute_transaction, hins, hd]
  have h3 : do_execute_result_state invoke tx caller now = tx := by
    simp [do_execute_result_state, h1]
  exact ⟨h1, by simp [hins, hd], h3, by simp [h3], by simp [h3]⟩

/-- A dispatch oracle that fails exactly on instructions targeting
program `3` (so on `sampleIx2`). -/
def sampleInvoke : TXInstruction → Except PErr Unit :=
  fun ix => if ix.program_id = 3 then .error (.cpiFailed 7) else .ok ()

/-- A pending transaction whose second stored instruction fails under
`sampleInvoke`. -/
def sampleFailTx : Transaction :=
  { samplePendingTx with instructions := [sampleIx, sampleIx2, sampleIx] }

/-- C8 witness: on `sampleFailTx`, dispatch stops at the failing second
instruction, the third is never invoked, and the transaction state is
unchanged. -/
theorem dispatch_aborts_on_failure_witness :
    do_execute_transaction sampleInvoke sampleFailTx 5 50
      = .error (.cpiFailed 7) ∧
    (dispatch sampleInvoke sampleFailTx.instructions).1
      = [sampleIx, sampleIx2] ∧
    do_execute_result_state sampleInvoke sampleFailTx 5 50 = sampleFailTx := by
  have h := dispatch_aborts_on_failure sampleInvoke sampleFailTx 5 50
    [sampleIx] [sampleIx] sampleIx2 (.cpiFailed 7) rfl
    (by intro ix hx
        simp only [List.mem_singleton] at hx
        subst hx
        rfl)
    rfl
  exact ⟨h.1, by simpa using h.2.1, h.2.2.1⟩

/-! ### Claim C9 -/

/-- C9: `approve` sets only the resolved owner's ballot slot to `true` and
`unapprove` sets only it to `false`: every other slot is unchanged, the tally
never decreases under `approve` nor increases under `unapprove`, each call
changes the tally by at most one, and both calls are idempotent. -/
theorem approve_unapprove_ballot_algebra (w : SmartWallet) (tx : Transaction)
    (owner : Pubkey) (i : Nat)
    (hidx : owner_index w owner = .ok i)
    (hlen : i < tx.signers.length) :
    approve w tx owner = .ok { tx with signers := tx.signers.set i true } ∧
    unapprove w tx owner = .ok { tx with signers := tx.signers.set i false } ∧
    (∀ j, j ≠ i → (tx.signers.set i true).get? j = tx.signers.get? j) ∧
    (∀ j, j ≠ i → (tx.signers.set i false).get? j = tx.signers.get? j) ∧
    tally tx ≤ tally { tx with signers := tx.signers.set i true } ∧
    tally { tx with signers := tx.signers.set i true } ≤ tally tx + 1 ∧
    tally { tx with signers := tx.signers.set i false } ≤ tally tx ∧
    tally tx ≤ tally { tx with signers := tx.signers.set i false } + 1 ∧
    approve w { tx with signers := tx.signers.set i true } owner
      = .ok { tx with signers := tx.signers.set i true } ∧
    unapprove w { tx with signers := tx.signers.set i false } owner
      = .ok { tx with signers := tx.signers.set i false } := by
  refine ⟨by simp [approve, hidx, hlen], by simp [unapprove, hidx, hlen],
    ?_, ?_, ?_, ?_, ?_, ?_, ?_, ?_⟩
  · intro j hj
    exact List.get?_set_ne true tx.signers (Ne.symm hj)
  · intro j hj
    exact List.get?_set_ne false tx.signers (Ne.symm hj)
  · simpa [tally] using count_true_le_set_true tx.signers i
  · simpa [tally] using count_true_set_true_le tx.signers i
  · simpa [tally] using count_true_set_false_le tx.signers i
  · simpa [tally] using count_true_le_set_false_succ tx.signers i
  · simp [approve, hidx, List.length_set, hlen, List.set_set]
  · simp [unapprove, hidx, List.length_set, hlen, List.set_set]

/-- C9 witness: owner `6` (slot `1`) approving `sampleTx`. -/
theorem approve_unapprove_ballot_algebra_witness :
    approve sampleWallet sampleTx 6
      = .ok { sampleTx with signers := sampleTx.signers.set 1 true } ∧
    tally sampleTx
      ≤ tally { sampleTx with signers := sampleTx.signers.set 1 true } ∧
    approve sampleWallet { sampleTx with signers := sampleTx.signers.set 1 true } 6
      = .ok { sampleTx with signers := sampleTx.signers.set 1 true } := by
  have h := approve_unapprove_ballot_algebra sampleWallet sampleTx 6 1 rfl
    (by decide)
  exact ⟨h.1, h.2.2.2.2.1, h.2.2.2.2.2.2.2.2.1⟩

/-! ### Claim C10 -/

/-- C10: calling `create_transaction` with an empty `blank_xacts` list and a
nonzero `buffer_size` aborts with the Rust panic from unwrapping the missing
first element (`blank_xacts.get(0).unwrap()`), not with a typed `ErrorCode`
error: a non-empty `blank_xacts` is an unstated precondition. -/
theorem create_transaction_empty_buffer_aborts
    (w : SmartWallet) (w_key proposer : Pubkey) (bump buffer_size : Nat)
    (hsize : buffer_size ≠ 0) :
    create_transaction w w_key proposer bump buffer_size []
      = .error .unwrapNone ∧
    ∀ c : ErrorCode,
      create_transaction w w_key proposer bump buffer_size []
        ≠ .error (.err c) := by
  refine ⟨rfl, fun c hc => ?_⟩
  have h2 : PErr.unwrapNone = PErr.err c :=
    Except.error.inj ((rfl :
      create_transaction w w_key proposer bump buffer_size []
        = Except.error PErr.unwrapNone).symm.trans hc)
  exact PErr.noConfusion h2

/-- C10 witness: concrete empty-buffer creation attempt. -/
theorem create_transaction_empty_buffer_aborts_witness :
    create_transaction sampleWallet 100 5 0 4 [] = .error .unwrapNone :=
  (create_transaction_empty_buffer_aborts sampleWallet 100 5 0 4
    (by decide)).1

end Goki
